import Mathlib

/-!
Verification of the Mata Sentry collector (src/server/server.js) against its
natural-language specification.

The server is embedded shallowly:

* JavaScript values appearing in payloads are modelled by `Value`
  (strings, numbers, booleans, null); JavaScript objects by ordered
  association lists `Obj` with the spread/destructuring semantics of the
  source (`setKey`, `removeKey`).
* Instants are modelled as integers (milliseconds since epoch).  The source
  stores `new Date().toISOString()` strings and re-parses them with
  `new Date(...)`; the ISO encoding of an instant is injective and none of
  the verified properties depend on the textual format, so a server
  timestamp is represented directly by its millisecond instant
  (`Value.vNum`).  Agent-supplied `timestamp` fields are likewise modelled
  as numeric instants (`new Date(n)` denotes the instant `n` ms); values
  that would parse to an invalid date compare as never-greater.
* The filesystem of `node_*.json` files is an association list from
  filename to stored object; `Bun.write` on an existing name overwrites it.
* The in-memory `hostnameStatus` `Map` is an association list from raw
  hostname to `LivenessRecord`.
* `updateHostnameStatus` reads the clock a second time for its cleanup
  sweep, milliseconds after the ingestion timestamp; the model passes the
  same instant for both, which is the single-instant abstraction of one
  request.
* Console drawing (`console.log`, `console.clear`) is pure I/O with no
  effect on state and is not modelled.
-/

namespace Sentry

/-- JavaScript values that occur in submitted payloads and stored node data. -/
inductive Value where
  | vStr : String → Value
  | vNum : Int → Value
  | vBool : Bool → Value
  | vNull : Value
deriving DecidableEq, Repr

/-- A JavaScript object: an ordered list of key/value pairs with distinct keys. -/
abbrev Obj := List (String × Value)

/-- JavaScript truthiness, as used by the guards `!data.sentry_secret`,
`!data.hostname` and `if (nodeData.timestamp)` in server.js. -/
def truthy : Value → Bool
  | .vStr s => decide (s ≠ "")
  | .vNum n => decide (n ≠ 0)
  | .vBool b => b
  | .vNull => false

/-- Key lookup in an association list (JavaScript property read). -/
def getKey {α : Type} : List (String × α) → String → Option α
  | [], _ => none
  | e :: rest, k => if e.1 = k then some e.2 else getKey rest k

/-- Key update: replaces the value in place when the key is present
(JavaScript spread `\x7b...o, k: v\x7d` keeps the original key position),
otherwise appends the new pair.  Also models `Map.set` and a file write. -/
def setKey {α : Type} : List (String × α) → String → α → List (String × α)
  | [], k, v => [(k, v)]
  | e :: rest, k, v => if e.1 = k then (k, v) :: rest else e :: setKey rest k v

/-- Key removal, as in the rest-destructuring
`const \x7b sentry_secret, ...nodeDataWithoutSecret \x7d = nodeData`. -/
def removeKey {α : Type} : List (String × α) → String → List (String × α)
  | [], _ => []
  | e :: rest, k => if e.1 = k then removeKey rest k else e :: removeKey rest k

/-- One entry of the in-memory `hostnameStatus` map: server.js line 38 stores
`\x7b lastUpdate: timestamp, status: 'online' \x7d`. -/
structure LivenessRecord where
  lastUpdate : Int
  status : String
deriving DecidableEq, Repr

/-- The `hostnameStatus` map, keyed by raw (unsanitized) hostname. -/
abbrev StatusMap := List (String × LivenessRecord)

/-- server.js: `const HOSTNAME_TIMEOUT = 5 * 60 * 1000`. -/
def HOSTNAME_TIMEOUT : Int := 5 * 60 * 1000

/-- The deletion test of both cleanup loops in server.js:
`now - new Date(data.lastUpdate) > HOSTNAME_TIMEOUT` (with the timeout kept
as a parameter). -/
def isStale (now timeout : Int) (r : LivenessRecord) : Bool :=
  decide (now - r.lastUpdate > timeout)

/-- The eviction sweep of server.js (the `setInterval` body, and the inline
cleanup loop of `updateHostnameStatus`): deletes every entry whose record is
stale and accumulates the `hasChanges` flag, which becomes true exactly when
at least one entry was deleted.  Returns the surviving map together with
that flag. -/
def evictSweep (m : StatusMap) (now timeout : Int) : StatusMap × Bool :=
  (m.filter (fun e => !isStale now timeout e.2),
   m.any (fun e => isStale now timeout e.2))

/-- The set (as a list) of hostnames the sweep deletes: exactly the keys of
the stale entries.  Used to state the eviction-exactness claim. -/
def removedHosts (m : StatusMap) (now timeout : Int) : List String :=
  (m.filter (fun e => isStale now timeout e.2)).map Prod.fst

/-- server.js `updateHostnameStatus(hostname, timestamp)`: sets the entry for
`hostname` to a fresh online record, then runs the inline cleanup loop with
the current clock reading.  Console redrawing is I/O and not modelled. -/
def updateHostnameStatus (m : StatusMap) (hostname : String) (timestamp now : Int) :
    StatusMap :=
  (evictSweep (setKey m hostname ⟨timestamp, "online"⟩) now HOSTNAME_TIMEOUT).1

/-- The character class `[a-zA-Z0-9-]` of the sanitizing regex. -/
def allowedChar (c : Char) : Bool :=
  c.isAlpha || c.isDigit || c = '-'

/-- server.js line 133: `data.hostname.replace(/[^a-zA-Z0-9-]/g, '_')` —
every character outside the allowed class is replaced (not deleted) by an
underscore. -/
def sanitizeHostname (s : String) : String :=
  String.mk (s.data.map (fun c => if allowedChar c then c else '_'))

/-- server.js line 133: the storage filename for a hostname. -/
def nodeFilename (hostname : String) : String :=
  "node_" ++ sanitizeHostname hostname ++ ".json"

/-- Server configuration: the shared secret `SENTRY_SECRET`. -/
structure Config where
  sentrySecret : String
deriving Repr

/-- The mutable state of the collector: the data directory of
`node_*.json` files (filename to stored object) and the in-memory
`hostnameStatus` map. -/
structure ServerState where
  files : List (String × Obj)
  hostnameStatus : StatusMap
deriving DecidableEq, Repr

/-- Outcome of the `/submit` handler: the success acknowledgment
`\x7b status, message, hostname, stored_at \x7d` (hostname and stored
instant retained) or an error response with its HTTP status code and
message. -/
inductive SubmitResult where
  | ok : String → Int → SubmitResult
  | err : Nat → String → SubmitResult
deriving DecidableEq, Repr

/-- HTTP status code of a `/submit` response (success responses are 200). -/
def statusCode : SubmitResult → Nat
  | .ok _ _ => 200
  | .err s _ => s

/-- The secret check of server.js line 111:
`!data.sentry_secret || data.sentry_secret !== SENTRY_SECRET`, negated —
true when the field is present, truthy, and strictly equal to the
configured secret (strict equality with a string fails for every
non-string value). -/
def secretOk (cfg : Config) (data : Obj) : Bool :=
  match getKey data "sentry_secret" with
  | some v => truthy v && decide (v = Value.vStr cfg.sentrySecret)
  | none => false

/-- server.js lines 128-131: `\x7b ...data, server_received_at: now \x7d`. -/
def nodeDataOf (data : Obj) (now : Int) : Obj :=
  setKey data "server_received_at" (Value.vNum now)

/-- The `/submit` handler of server.js (lines 108-155).  `body = none`
models a request body that `req.json()` fails to parse: the exception
reaches the catch-all, which answers 500 "Invalid JSON or server error".
A truthy non-string hostname also lands in that catch-all, because
`.replace` on a non-string throws before any state is written.  The
accepted path writes the node file, touches `hostnameStatus`, and
acknowledges with the hostname and the `server_received_at` instant. -/
def handleSubmit (cfg : Config) (st : ServerState) (body : Option Obj) (now : Int) :
    ServerState × SubmitResult :=
  match body with
  | none => (st, .err 500 "Invalid JSON or server error")
  | some data =>
    if !secretOk cfg data then
      (st, .err 401 "Invalid or missing sentry_secret")
    else
      match getKey data "hostname" with
      | some hv =>
        if truthy hv then
          match hv with
          | .vStr h =>
            (⟨setKey st.files (nodeFilename h) (nodeDataOf data now),
              updateHostnameStatus st.hostnameStatus h now now⟩,
             .ok h now)
          | _ => (st, .err 500 "Invalid JSON or server error")
        else (st, .err 400 "Missing required field: hostname")
      | none => (st, .err 400 "Missing required field: hostname")

/-- server.js line 166: the 2-minute freshness window of `/nodes`. -/
def TWO_MINUTES : Int := 2 * 60 * 1000

/-- The instant denoted by `new Date(v)`: a numeric value denotes that
millisecond instant; anything else is treated as an invalid date, which
compares as never-greater (ISO-string parsing is abstracted away, see the
file header). -/
def dateOf : Value → Option Int
  | .vNum n => some n
  | _ => none

/-- server.js lines 172-177: `isOnline` starts false; when
`nodeData.timestamp` is truthy, it becomes
`new Date(nodeData.timestamp) > twoMinutesAgo` where
`twoMinutesAgo = now - TWO_MINUTES` — a strict comparison, with an invalid
date comparing false.  Note that no fallback to `hostnameStatus` exists:
the liveness map is not consulted here. -/
def nodeIsOnline (nodeData : Obj) (now : Int) : Bool :=
  match getKey nodeData "timestamp" with
  | some v =>
    if truthy v then
      match dateOf v with
      | some t => decide (t > now - TWO_MINUTES)
      | none => false
    else false
  | none => false

/-- server.js lines 180-185: the per-node view returned by `/nodes` —
the stored data with `sentry_secret` destructured away and `is_online`
appended. -/
def nodeView (nodeData : Obj) (now : Int) : Obj :=
  setKey (removeKey nodeData "sentry_secret") "is_online"
    (Value.vBool (nodeIsOnline nodeData now))

/-- The `/nodes` handler (lines 158-199): every stored file, paired with its
view.  The glob `node_*.json` matches every filename the submit path
creates, so the whole store is listed. -/
def listNodes (files : List (String × Obj)) (now : Int) : List (String × Obj) :=
  files.map (fun e => (e.1, nodeView e.2 now))

/-- A finite sequence of submissions, folded through the submit handler:
each element is the parsed request body with the server clock reading of
its request. -/
def submitAll (cfg : Config) (st : ServerState) (subs : List (Obj × Int)) : ServerState :=
  subs.foldl (fun s pt => (handleSubmit cfg s (some pt.1) pt.2).1) st

/-- Concrete configuration with shared secret "S", used by the concrete
scenarios. -/
def cfgS : Config := ⟨"S"⟩

/-- The empty initial state: no node files, no liveness entries. -/
def st0 : ServerState := ⟨[], []⟩

/-- Scenario A payload of the spec: hostname node-1, correct secret, a cpu
field, and no agent-supplied timestamp field. -/
def scenarioAPayload : Obj :=
  [("hostname", .vStr "node-1"), ("sentry_secret", .vStr "S"), ("cpu", .vStr "x")]

/-- An accepted payload that also carries the reserved fields is_online and
server_received_at with its own values. -/
def spoofedPayload : Obj :=
  [("hostname", .vStr "h"), ("sentry_secret", .vStr "S"),
   ("is_online", .vStr "yes"), ("server_received_at", .vStr "fake")]

/-- An accepted payload that carries its own server_received_at field. -/
def spoofedStampPayload : Obj :=
  [("hostname", .vStr "h"), ("sentry_secret", .vStr "S"),
   ("server_received_at", .vStr "fake")]

/-- First of two accepted writes to the same hostname. -/
def firstWrite : Obj :=
  [("hostname", .vStr "n1"), ("sentry_secret", .vStr "S"), ("cpu", .vStr "a")]

/-- Second of two accepted writes to the same hostname. -/
def secondWrite : Obj :=
  [("hostname", .vStr "n1"), ("sentry_secret", .vStr "S"), ("cpu", .vStr "b")]

/-- The two writes to hostname n1, at instants 1 and 2. -/
def twoWrites : List (Obj × Int) := [(firstWrite, 1), (secondWrite, 2)]

/-- Accepted payload for hostname "a.b". -/
def dotPayload : Obj :=
  [("hostname", .vStr "a.b"), ("sentry_secret", .vStr "S"), ("cpu", .vStr "one")]

/-- Accepted payload for hostname "a,b", which sanitizes to the same storage
key as "a.b". -/
def commaPayload : Obj :=
  [("hostname", .vStr "a,b"), ("sentry_secret", .vStr "S"), ("cpu", .vStr "two")]

/-- The state after submitting `dotPayload` at instant 1 and then
`commaPayload` at instant 2, starting from the empty state. -/
def collisionState : ServerState :=
  (handleSubmit cfgS (handleSubmit cfgS st0 (some dotPayload) 1).1
    (some commaPayload) 2).1

/-! Association-list lemmas shared by the claim proofs. -/

theorem getKey_setKey_self {α : Type} (l : List (String × α)) (k : String) (v : α) :
    getKey (setKey l k v) k = some v := by
  induction l with
  | nil => simp [getKey, setKey]
  | cons e rest ih =>
    by_cases h : e.1 = k
    · simp [setKey, h, getKey]
    · simp [setKey, h, getKey, ih]

theorem getKey_setKey_ne {α : Type} (l : List (String × α)) (k kq : String) (v : α)
    (h : kq ≠ k) : getKey (setKey l k v) kq = getKey l kq := by
  have hk : k ≠ kq := fun hh => h hh.symm
  induction l with
  | nil => simp [getKey, setKey, hk]
  | cons e rest ih =>
    by_cases he : e.1 = k
    · subst he
      simp [setKey, getKey, hk]
    · simp [setKey, he, getKey, ih]

theorem getKey_removeKey_self {α : Type} (l : List (String × α)) (k : String) :
    getKey (removeKey l k) k = none := by
  induction l with
  | nil => simp [getKey, removeKey]
  | cons e rest ih =>
    by_cases h : e.1 = k
    · simp [removeKey, h, ih]
    · simp [removeKey, h, getKey, ih]

theorem getKey_removeKey_ne {α : Type} (l : List (String × α)) (k kq : String)
    (h : kq ≠ k) : getKey (removeKey l k) kq = getKey l kq := by
  have hk : k ≠ kq := fun hh => h hh.symm
  induction l with
  | nil => simp [removeKey]
  | cons e rest ih =>
    by_cases he : e.1 = k
    · subst he
      simp [removeKey, getKey, hk, ih]
    · simp [removeKey, he, getKey, ih]

theorem getKey_mem {α : Type} (l : List (String × α)) (k : String) (v : α)
    (h : getKey l k = some v) : (k, v) ∈ l := by
  induction l with
  | nil => simp [getKey] at h
  | cons e rest ih =>
    obtain ⟨a, b⟩ := e
    by_cases he : a = k
    · subst he
      simp [getKey] at h
      subst h
      exact List.mem_cons_self _ _
    · simp [getKey, he] at h
      exact List.mem_cons_of_mem _ (ih h)

theorem mem_keys_setKey {α : Type} (l : List (String × α)) (k x : String) (v : α) :
    x ∈ (setKey l k v).map Prod.fst ↔ x ∈ l.map Prod.fst ∨ x = k := by
  induction l with
  | nil => simp [setKey]
  | cons e rest ih =>
    by_cases he : e.1 = k
    · subst he
      simp [setKey]
      tauto
    · simp [setKey, he, ih]
      tauto

theorem nodup_keys_setKey {α : Type} (l : List (String × α)) (k : String) (v : α)
    (h : (l.map Prod.fst).Nodup) : ((setKey l k v).map Prod.fst).Nodup := by
  induction l with
  | nil => simp [setKey]
  | cons e rest ih =>
    rw [List.map_cons, List.nodup_cons] at h
    by_cases he : e.1 = k
    · subst he
      have hs : setKey (e :: rest) e.1 v = (e.1, v) :: rest := by simp [setKey]
      rw [hs, List.map_cons, List.nodup_cons]
      exact h
    · have hs : setKey (e :: rest) k v = e :: setKey rest k v := by simp [setKey, he]
      rw [hs, List.map_cons, List.nodup_cons]
      constructor
      · intro hx
        rcases (mem_keys_setKey rest k e.1 v).mp hx with hin | hek
        · exact h.1 hin
        · exact he hek
      · exact ih h.2

/-! Lemmas about the submit handler. -/

theorem handleSubmit_accepted (cfg : Config) (st : ServerState) (p : Obj) (now : Int)
    (h : String) (hcfg : cfg.sentrySecret ≠ "")
    (hsec : getKey p "sentry_secret" = some (Value.vStr cfg.sentrySecret))
    (hh : getKey p "hostname" = some (Value.vStr h)) (hne : h ≠ "") :
    handleSubmit cfg st (some p) now =
      (⟨setKey st.files (nodeFilename h) (nodeDataOf p now),
        updateHostnameStatus st.hostnameStatus h now now⟩, .ok h now) := by
  simp [handleSubmit, secretOk, hsec, hh, truthy, hcfg, hne]

theorem handleSubmit_keys_nodup (cfg : Config) (st : ServerState) (body : Option Obj)
    (now : Int) (h : (st.files.map Prod.fst).Nodup) :
    (((handleSubmit cfg st body now).1).files.map Prod.fst).Nodup := by
  cases body with
  | none => exact h
  | some data =>
    simp only [handleSubmit]
    split
    · exact h
    · split
      · split
        · split
          · exact nodup_keys_setKey _ _ _ h
          · exact h
        · exact h
      · exact h

theorem submitAll_keys_nodup (cfg : Config) (subs : List (Obj × Int)) :
    ∀ st : ServerState, (st.files.map Prod.fst).Nodup →
      ((submitAll cfg st subs).files.map Prod.fst).Nodup := by
  induction subs with
  | nil => intro st h; exact h
  | cons x xs ih =>
    intro st h
    exact ih ((handleSubmit cfg st (some x.1) x.2).1)
      (handleSubmit_keys_nodup cfg st (some x.1) x.2 h)

theorem submitAll_getLast (cfg : Config) (h : String) (hcfg : cfg.sentrySecret ≠ "")
    (hne : h ≠ "") :
    ∀ (subs : List (Obj × Int)) (st : ServerState) (hnil : subs ≠ []),
      (∀ pt ∈ subs, getKey pt.1 "sentry_secret" = some (Value.vStr cfg.sentrySecret) ∧
        getKey pt.1 "hostname" = some (Value.vStr h)) →
      getKey (submitAll cfg st subs).files (nodeFilename h)
        = some (nodeDataOf (subs.getLast hnil).1 (subs.getLast hnil).2) := by
  intro subs
  induction subs with
  | nil => intro st hnil; exact absurd rfl hnil
  | cons x xs ih =>
    intro st hnil hall
    have hx := hall x (List.mem_cons_self _ _)
    have hstep : (handleSubmit cfg st (some x.1) x.2).1 =
        ⟨setKey st.files (nodeFilename h) (nodeDataOf x.1 x.2),
         updateHostnameStatus st.hostnameStatus h x.2 x.2⟩ := by
      rw [handleSubmit_accepted cfg st x.1 x.2 h hcfg hx.1 hx.2 hne]
    by_cases hxs : xs = []
    · subst hxs
      have hfold : submitAll cfg st [x] = (handleSubmit cfg st (some x.1) x.2).1 := rfl
      rw [hfold, hstep]
      exact getKey_setKey_self _ _ _
    · have hfold : submitAll cfg st (x :: xs)
          = submitAll cfg ((handleSubmit cfg st (some x.1) x.2).1) xs := rfl
      have hlast : (x :: xs).getLast hnil = xs.getLast hxs := List.getLast_cons hxs
      rw [hfold, hlast]
      exact ih ((handleSubmit cfg st (some x.1) x.2).1) hxs
        (fun pt hpt => hall pt (List.mem_cons_of_mem _ hpt))

/-! The claim theorems. -/

/-- Claim C4: last-write-wins.  For every finite nonempty sequence of
accepted submissions for the same hostname (correct secret, that hostname
in every payload), started from any state whose store has distinct
filenames, the stored object under that hostname's filename afterwards is
exactly the last submission's payload extended with its own
server_received_at instant — never a merge of two writes — and every
filename still names at most one snapshot. -/
theorem c4_last_write_wins (cfg : Config) (st : ServerState) (h : String)
    (subs : List (Obj × Int)) (hcfg : cfg.sentrySecret ≠ "") (hne : h ≠ "")
    (hnil : subs ≠ [])
    (hall : ∀ pt ∈ subs, getKey pt.1 "sentry_secret" = some (Value.vStr cfg.sentrySecret) ∧
      getKey pt.1 "hostname" = some (Value.vStr h))
    (hnd : (st.files.map Prod.fst).Nodup) :
    getKey (submitAll cfg st subs).files (nodeFilename h)
      = some (nodeDataOf (subs.getLast hnil).1 (subs.getLast hnil).2)
    ∧ ∀ k, ((submitAll cfg st subs).files.map Prod.fst).count k ≤ 1 := by
  refine ⟨submitAll_getLast cfg h hcfg hne subs st hnil hall, ?_⟩
  exact List.nodup_iff_count_le_one.mp (submitAll_keys_nodup cfg subs st hnd)

/-- Witness for C4: two concrete writes to hostname n1; the store afterwards
holds exactly the second payload with its timestamp, under one key. -/
theorem c4_witness :
    getKey (submitAll cfgS st0 twoWrites).files (nodeFilename "n1")
      = some (nodeDataOf secondWrite 2) := by
  have hmain := c4_last_write_wins cfgS st0 "n1" twoWrites (by decide) (by decide)
    (by decide) (by decide) (by decide)
  exact hmain.1

/-- Claim C5: atomicity on rejection.  A submission with a wrong or missing
secret is answered 401, and one with an untruthy or missing hostname is
answered 400; in each case the whole server state — node files and the
liveness map alike — is returned unchanged. -/
theorem c5_rejection_atomic (cfg : Config) (st : ServerState) (p : Obj) (now : Int) :
    (secretOk cfg p = false →
      handleSubmit cfg st (some p) now = (st, .err 401 "Invalid or missing sentry_secret"))
    ∧ (secretOk cfg p = true → getKey p "hostname" = none →
      handleSubmit cfg st (some p) now = (st, .err 400 "Missing required field: hostname"))
    ∧ (secretOk cfg p = true → ∀ v, getKey p "hostname" = some v → truthy v = false →
      handleSubmit cfg st (some p) now
        = (st, .err 400 "Missing required field: hostname")) := by
  refine ⟨fun hs => ?_, fun hs hh => ?_, fun hs v hh hv => ?_⟩
  · simp [handleSubmit, hs]
  · simp [handleSubmit, hs, hh]
  · simp [handleSubmit, hs, hh, hv]

/-- Witness for C5: a wrong-secret submission answers 401 and a
missing-hostname submission answers 400, each leaving the state unchanged. -/
theorem c5_witness :
    handleSubmit cfgS st0 (some [("hostname", Value.vStr "n1")]) 7
      = (st0, .err 401 "Invalid or missing sentry_secret")
    ∧ handleSubmit cfgS st0 (some [("sentry_secret", Value.vStr "S")]) 7
      = (st0, .err 400 "Missing required field: hostname") := by
  constructor
  · exact (c5_rejection_atomic cfgS st0 [("hostname", Value.vStr "n1")] 7).1 (by decide)
  · exact (c5_rejection_atomic cfgS st0 [("sentry_secret", Value.vStr "S")] 7).2.1
      (by decide) (by decide)

/-- Counterexample to claim C1.  Scenario A of the spec: the payload
`\x7b hostname: node-1, sentry_secret: S, cpu: x \x7d` (no timestamp field)
is accepted at instant 1000 and the liveness map records node-1 as just
touched, yet the immediate query at the same instant reports is_online
false — the query path never falls back to the liveness map. -/
theorem c1_counterexample :
    getKey ((handleSubmit cfgS st0 (some scenarioAPayload) 1000).1).hostnameStatus "node-1"
      = some ⟨1000, "online"⟩
    ∧ (listNodes ((handleSubmit cfgS st0 (some scenarioAPayload) 1000).1).files 1000).map
        (fun o => getKey o.2 "is_online") = [some (Value.vBool false)]
    ∧ some (Value.vBool false) ≠ some (Value.vBool true) := by decide

/-- Claim C1 as amended: for every stored snapshot whose data has no
timestamp field, the query path's online determination is false
unconditionally — `listNodes` does not consult the liveness map at all (it
is not even an input of the query path), so the node is reported with
is_online false. -/
theorem c1_no_timestamp_offline (files : List (String × Obj)) (now : Int)
    (fn : String) (nd : Obj) (hmem : (fn, nd) ∈ files)
    (hts : getKey nd "timestamp" = none) :
    nodeIsOnline nd now = false
    ∧ (fn, nodeView nd now) ∈ listNodes files now
    ∧ getKey (nodeView nd now) "is_online" = some (Value.vBool false) := by
  have hoff : nodeIsOnline nd now = false := by simp [nodeIsOnline, hts]
  refine ⟨hoff, ?_, ?_⟩
  · exact List.mem_map.mpr ⟨(fn, nd), hmem, rfl⟩
  · unfold nodeView
    rw [getKey_setKey_self, hoff]

/-- Witness for the amended C1 at a concrete store. -/
theorem c1_no_timestamp_offline_witness :
    nodeIsOnline [("cpu", Value.vStr "x")] 0 = false
    ∧ ("f", nodeView [("cpu", Value.vStr "x")] 0)
        ∈ listNodes [("f", [("cpu", Value.vStr "x")])] 0
    ∧ getKey (nodeView [("cpu", Value.vStr "x")] 0) "is_online"
        = some (Value.vBool false) :=
  c1_no_timestamp_offline [("f", [("cpu", Value.vStr "x")])] 0 "f"
    [("cpu", Value.vStr "x")] (by decide) (by decide)

/-- Counterexample to claim C2.  At the exact boundary, with lastUpdate
120000 and the query at 240000, the window elapsed equals TWO_MINUTES, but
the strict comparison of server.js line 175 reports the node offline,
where the claim demands online. -/
theorem c2_counterexample :
    (240000 : Int) - 120000 = TWO_MINUTES
    ∧ nodeIsOnline [("timestamp", Value.vNum 120000)] 240000 = false
    ∧ false ≠ true := by decide

/-- Claim C2 as amended: for a snapshot whose timestamp field holds the
(nonzero) instant t, the query at instant `now` reports online exactly when
now - t is strictly less than the 2-minute window; at the boundary
now - t = TWO_MINUTES the node is reported offline. -/
theorem c2_online_iff_strict (nd : Obj) (t now : Int)
    (hts : getKey nd "timestamp" = some (Value.vNum t)) (hnz : t ≠ 0) :
    nodeIsOnline nd now = true ↔ now - t < TWO_MINUTES := by
  simp [nodeIsOnline, hts, truthy, dateOf, hnz, TWO_MINUTES]
  omega

/-- Witness for the amended C2: a fresh timestamp is reported online. -/
theorem c2_online_iff_strict_witness :
    nodeIsOnline [("timestamp", Value.vNum 1000)] 2000 = true :=
  (c2_online_iff_strict [("timestamp", Value.vNum 1000)] 1000 2000 (by decide)
    (by decide)).mpr (by decide)

/-- Counterexample to claim C3.  An accepted payload that itself carries
is_online and server_received_at fields does not round-trip: the query path
overwrites both, so the returned view no longer contains those fields of
the original payload. -/
theorem c3_counterexample :
    getKey spoofedPayload "is_online" = some (Value.vStr "yes")
    ∧ getKey spoofedPayload "server_received_at" = some (Value.vStr "fake")
    ∧ (listNodes ((handleSubmit cfgS st0 (some spoofedPayload) 1000).1).files 1000).map
        (fun o => getKey o.2 "is_online") = [some (Value.vBool false)]
    ∧ (listNodes ((handleSubmit cfgS st0 (some spoofedPayload) 1000).1).files 1000).map
        (fun o => getKey o.2 "server_received_at") = [some (Value.vNum 1000)]
    ∧ some (Value.vBool false) ≠ some (Value.vStr "yes")
    ∧ some (Value.vNum 1000) ≠ some (Value.vStr "fake") := by decide

/-- Claim C3 as amended: a payload accepted by ingestion, read back via the
query path, yields a view that keeps every original field except
sentry_secret — which is absent from the view — and except the two
server-reserved fields server_received_at and is_online, which the server
overwrites (is_online with a computed boolean). -/
theorem c3_roundtrip (cfg : Config) (st : ServerState) (p : Obj) (now : Int)
    (h : String) (hcfg : cfg.sentrySecret ≠ "")
    (hsec : getKey p "sentry_secret" = some (Value.vStr cfg.sentrySecret))
    (hh : getKey p "hostname" = some (Value.vStr h)) (hne : h ≠ "") :
    (nodeFilename h, nodeView (nodeDataOf p now) now)
        ∈ listNodes ((handleSubmit cfg st (some p) now).1).files now
    ∧ getKey (nodeView (nodeDataOf p now) now) "sentry_secret" = none
    ∧ getKey (nodeView (nodeDataOf p now) now) "is_online"
        = some (Value.vBool (nodeIsOnline (nodeDataOf p now) now))
    ∧ ∀ k, k ≠ "sentry_secret" → k ≠ "server_received_at" → k ≠ "is_online" →
        getKey (nodeView (nodeDataOf p now) now) k = getKey p k := by
  have hacc := handleSubmit_accepted cfg st p now h hcfg hsec hh hne
  refine ⟨?_, ?_, ?_, ?_⟩
  · rw [hacc]
    exact List.mem_map.mpr ⟨(nodeFilename h, nodeDataOf p now),
      getKey_mem _ _ _ (getKey_setKey_self st.files (nodeFilename h) (nodeDataOf p now)),
      rfl⟩
  · unfold nodeView
    rw [getKey_setKey_ne _ _ _ _ (by decide), getKey_removeKey_self]
  · unfold nodeView
    rw [getKey_setKey_self]
  · intro k hk1 hk2 hk3
    unfold nodeView
    rw [getKey_setKey_ne _ _ _ _ hk3, getKey_removeKey_ne _ _ _ hk1]
    unfold nodeDataOf
    rw [getKey_setKey_ne _ _ _ _ hk2]

/-- Witness for the amended C3 on the Scenario A payload. -/
theorem c3_roundtrip_witness :
    (nodeFilename "node-1", nodeView (nodeDataOf scenarioAPayload 5) 5)
        ∈ listNodes ((handleSubmit cfgS st0 (some scenarioAPayload) 5).1).files 5
    ∧ getKey (nodeView (nodeDataOf scenarioAPayload 5) 5) "sentry_secret" = none
    ∧ getKey (nodeView (nodeDataOf scenarioAPayload 5) 5) "is_online"
        = some (Value.vBool (nodeIsOnline (nodeDataOf scenarioAPayload 5) 5))
    ∧ ∀ k, k ≠ "sentry_secret" → k ≠ "server_received_at" → k ≠ "is_online" →
        getKey (nodeView (nodeDataOf scenarioAPayload 5) 5) k
          = getKey scenarioAPayload k :=
  c3_roundtrip cfgS st0 scenarioAPayload 5 "node-1" (by decide) (by decide)
    (by decide) (by decide)

/-- Counterexample to claim C6.  The sweep reports only the boolean
hasChanges flag, not the set of evicted hostnames: sweeping the singleton
map for host a and the singleton map for host b (both stale at instant
300001) produces the same report, although the removed sets differ, so no
reading of the report can be the set of hostnames removed. -/
theorem c6_counterexample :
    ¬ ∃ f : Bool → List String,
      ∀ (m : StatusMap) (now : Int),
        f (evictSweep m now HOSTNAME_TIMEOUT).2 = removedHosts m now HOSTNAME_TIMEOUT := by
  rintro ⟨f, hf⟩
  have h1 := hf [("a", ⟨0, "online"⟩)] 300001
  have h2 := hf [("b", ⟨0, "online"⟩)] 300001
  have e1 : (evictSweep [("a", ⟨0, "online"⟩)] 300001 HOSTNAME_TIMEOUT).2 = true := by
    decide
  have e2 : (evictSweep [("b", ⟨0, "online"⟩)] 300001 HOSTNAME_TIMEOUT).2 = true := by
    decide
  have r1 : removedHosts [("a", ⟨0, "online"⟩)] 300001 HOSTNAME_TIMEOUT = ["a"] := by
    decide
  have r2 : removedHosts [("b", ⟨0, "online"⟩)] 300001 HOSTNAME_TIMEOUT = ["b"] := by
    decide
  rw [e1, r1] at h1
  rw [e2, r2] at h2
  rw [h1] at h2
  exact absurd h2 (by decide)

/-- Claim C6 as amended: the sweep at instant `now` with window `timeout`
keeps exactly the records with now - lastUpdate ≤ timeout, each unchanged
and in order (the survivors form a sublist of the original map), and it
reports to the caller only whether anything was removed: its boolean is
true exactly when the set of removed hostnames is nonempty. -/
theorem c6_evict_exact (m : StatusMap) (now timeout : Int) :
    (∀ e : String × LivenessRecord,
      e ∈ (evictSweep m now timeout).1 ↔ e ∈ m ∧ isStale now timeout e.2 = false)
    ∧ (evictSweep m now timeout).1.Sublist m
    ∧ ((evictSweep m now timeout).2 = true ↔ removedHosts m now timeout ≠ []) := by
  refine ⟨?_, ?_, ?_⟩
  · intro e
    simp [evictSweep, List.mem_filter]
  · exact List.filter_sublist m
  · simp [evictSweep, removedHosts, List.any_eq_true, List.map_eq_nil_iff,
      List.filter_eq_nil_iff]

/-- Counterexample to claim C7.  A request whose body fails to parse is
answered with HTTP status 500 — the server-error code — not with a
client-error (4xx) code. -/
theorem c7_counterexample :
    statusCode (handleSubmit cfgS st0 none 0).2 = 500
    ∧ ¬(400 ≤ statusCode (handleSubmit cfgS st0 none 0).2
        ∧ statusCode (handleSubmit cfgS st0 none 0).2 < 500) := by decide

/-- Claim C7 as amended: a submission whose body is not a well-formed
structured record reaches the catch-all handler, which answers the
server-error code 500 with message "Invalid JSON or server error" and
leaves the state unchanged. -/
theorem c7_malformed_is_server_error (cfg : Config) (st : ServerState) (now : Int) :
    handleSubmit cfg st none now = (st, .err 500 "Invalid JSON or server error") := rfl

/-- Counterexample to claim C8.  An accepted payload carrying its own
server_received_at field is not stored verbatim: the server overwrites that
field with its own ingestion instant before the write. -/
theorem c8_counterexample :
    getKey spoofedStampPayload "server_received_at" = some (Value.vStr "fake")
    ∧ (getKey ((handleSubmit cfgS st0 (some spoofedStampPayload) 1000).1).files
        (nodeFilename "h")).map (fun o => getKey o "server_received_at")
      = some (some (Value.vNum 1000))
    ∧ some (Value.vNum 1000) ≠ some (Value.vStr "fake") := by decide

/-- Claim C8 as amended: for every accepted submission, the object written
to storage still contains the secret field verbatim alongside every other
payload field except a payload-supplied server_received_at, which is
overwritten with the server's ingestion instant; the secret is removed only
by the read path's view, never before storage. -/
theorem c8_secret_stored (cfg : Config) (st : ServerState) (p : Obj) (now : Int)
    (h : String) (hcfg : cfg.sentrySecret ≠ "")
    (hsec : getKey p "sentry_secret" = some (Value.vStr cfg.sentrySecret))
    (hh : getKey p "hostname" = some (Value.vStr h)) (hne : h ≠ "") :
    getKey ((handleSubmit cfg st (some p) now).1).files (nodeFilename h)
      = some (nodeDataOf p now)
    ∧ getKey (nodeDataOf p now) "sentry_secret" = some (Value.vStr cfg.sentrySecret)
    ∧ (∀ k, k ≠ "server_received_at" → getKey (nodeDataOf p now) k = getKey p k)
    ∧ getKey (nodeView (nodeDataOf p now) now) "sentry_secret" = none := by
  have hacc := handleSubmit_accepted cfg st p now h hcfg hsec hh hne
  refine ⟨?_, ?_, ?_, ?_⟩
  · rw [hacc]
    exact getKey_setKey_self _ _ _
  · unfold nodeDataOf
    rw [getKey_setKey_ne _ _ _ _ (by decide)]
    exact hsec
  · intro k hk
    unfold nodeDataOf
    rw [getKey_setKey_ne _ _ _ _ hk]
  · unfold nodeView
    rw [getKey_setKey_ne _ _ _ _ (by decide), getKey_removeKey_self]

/-- Witness for the amended C8 on a concrete accepted payload. -/
theorem c8_secret_stored_witness :
    getKey ((handleSubmit cfgS st0 (some firstWrite) 3).1).files (nodeFilename "n1")
      = some (nodeDataOf firstWrite 3)
    ∧ getKey (nodeDataOf firstWrite 3) "sentry_secret"
      = some (Value.vStr cfgS.sentrySecret)
    ∧ (∀ k, k ≠ "server_received_at" →
        getKey (nodeDataOf firstWrite 3) k = getKey firstWrite k)
    ∧ getKey (nodeView (nodeDataOf firstWrite 3) 3) "sentry_secret" = none :=
  c8_secret_stored cfgS st0 firstWrite 3 "n1" (by decide) (by decide) (by decide)
    (by decide)

/-- Claim C9: sanitization replaces disallowed characters instead of
deleting them, so it preserves the length of every hostname, and a
non-empty hostname can never sanitize to an empty storage key. -/
theorem c9_sanitize_total (s : String) (h : s ≠ "") :
    sanitizeHostname s ≠ "" ∧ (sanitizeHostname s).length = s.length := by
  constructor
  · intro hempty
    apply h
    cases s with
    | mk data =>
      have hmap : data.map (fun c => if allowedChar c then c else '_') = [] :=
        congrArg String.data hempty
      have hd : data = [] := by simpa using hmap
      rw [hd]
  · cases s with
    | mk data => simp [sanitizeHostname, String.length]

/-- Witness for C9 at a concrete hostname with a disallowed character. -/
theorem c9_sanitize_total_witness :
    sanitizeHostname "a.b" ≠ ""
    ∧ (sanitizeHostname "a.b").length = ("a.b" : String).length :=
  c9_sanitize_total "a.b" (by decide)

/-- Claim C10: sanitization is not injective — the distinct hostnames "a.b"
and "a,b" differ only in which disallowed character they contain yet map to
the same storage key, so after accepting a submission for each, the store
holds a single snapshot under that shared key, namely the later payload:
the second upsert replaced the first hostname's snapshot. -/
theorem c10_sanitize_collision :
    ("a.b" : String) ≠ "a,b"
    ∧ sanitizeHostname "a.b" = sanitizeHostname "a,b"
    ∧ collisionState.files.map Prod.fst = [nodeFilename "a.b"]
    ∧ getKey collisionState.files (nodeFilename "a.b")
      = some (nodeDataOf commaPayload 2) := by decide

end Sentry
